import Mathlib

/-!
Verification of the camouflage-pattern generation engine.

Shallow embedding of the repository's core algorithms:
* the pattern-family factory dispatch (`patternFactory.ts`),
* the per-family layer scheduling and canvas fill-style behaviour,
* the Digital family's cellular-automata grid smoother (`digital.ts`),
* the seeded Perlin-noise evaluator (`perlin.ts`),
* the raster post-processing pass (contrast / unsharp mask),
* the per-pixel texture overlays, and
* the seam verifier (`patternUtils.ts`).

Machine real numbers of the source appear as `ℚ` with the exact storage
rounding of `Uint8ClampedArray` (round half to even) made explicit;
platform pieces that are not code of this repository (the browser's
`Math.cos`/`Math.sin`, the canvas blur filter, the seeded noise singleton
as consumed by generic passes) enter as explicit parameters.
-/

/- ## Pattern factory (patternFactory.ts) -/

/-- The six pattern families of `PatternType` / `PatternFactory`. -/
inductive Family where
  | woodland
  | desert
  | urban
  | digital
  | tiger
  | flecktarn
deriving DecidableEq, Repr

/-- The six recognized family-name strings, as listed by `getPatternTypes`. -/
def sixPatternNames : List String :=
  ["woodland", "desert", "urban", "digital", "tiger", "flecktarn"]

/-- ASCII lower-casing of one character, as `String.prototype.toLowerCase`
acts on the ASCII identifiers this dispatch receives. -/
def asciiLowerChar (c : Char) : Char :=
  if 'A' ≤ c ∧ c ≤ 'Z' then Char.ofNat (c.toNat + 32) else c

/-- `type.toLowerCase()` on an ASCII pattern-type string. -/
def jsToLower (s : String) : String :=
  String.mk (s.data.map asciiLowerChar)

/-- `PatternFactory.createPattern`: dispatch on `type.toLowerCase()`; the
default branch logs a warning and builds a Woodland pattern.  The returned
`Bool` records whether the warning branch fired.  Branch order follows the
source `switch`. -/
def createPatternFamily (t : String) : Family × Bool :=
  let s := jsToLower t
  if s = "woodland" then (Family.woodland, false)
  else if s = "digital" then (Family.digital, false)
  else if s = "tiger" then (Family.tiger, false)
  else if s = "desert" then (Family.desert, false)
  else if s = "urban" then (Family.urban, false)
  else if s = "flecktarn" then (Family.flecktarn, false)
  else (Family.woodland, true)

/- ## Per-family layer scheduling (which color indices each `generate` draws) -/

/-- Woodland `generate`: `createWoodlandShapes` runs for colors 1, 2, 3
unconditionally, and for color 4 only when `colors.length > 4`. -/
def woodlandLayerCalls (n : ℕ) : List ℕ :=
  [1, 2, 3] ++ (if 4 < n then [4] else [])

/-- Flecktarn `generate`: `generateFlecktarnSpots` runs for colors 1, 2, 3
unconditionally, and for color 4 only when `colors.length > 4`. -/
def flecktarnLayerCalls (n : ℕ) : List ℕ :=
  [1, 2, 3] ++ (if 4 < n then [4] else [])

/-- Tiger `generate`: patches always use color 1; stripes use color 2 only
when `colors.length > 2`. -/
def tigerLayerCalls (n : ℕ) : List ℕ :=
  [1] ++ (if 2 < n then [2] else [])

/-- Urban `generate`: `for (let layer = 1; layer < colors.length; layer++)`,
i.e. layers 1 through `colors.length − 1`. -/
def urbanLayerCalls (n : ℕ) : List ℕ :=
  List.range' 1 (n - 1)

/-- Digital `generate`: `colorLayers = colors.length - 1` and
`for (let layer = 1; layer <= colorLayers; layer++)`. -/
def digitalLayerCalls (n : ℕ) : List ℕ :=
  List.range' 1 (n - 1)

/-- Desert `generate`: `visibleLayers = Math.min(colors.length - 1, 3)` and
`for (let layer = 1; layer <= visibleLayers; layer++)`. -/
def desertLayerCalls (n : ℕ) : List ℕ :=
  List.range' 1 (min (n - 1) 3)

/-- A canvas operation relevant to fill tracking: a `fillStyle` assignment
(`none` models the `undefined` read `colors[layer]` past the end of the
palette) or a fill of some shape/rect. -/
inductive CanvasOp where
  | setFill (c : Option String)
  | fillShape
deriving DecidableEq

/-- The fill-relevant operations of a `generate` run: set style to
`colors[0]`, fill the base rect, then per scheduled layer set style to
`colors[layer]` and draw that layer's shapes. -/
def familyOps (layers : List ℕ) (colors : List String) : List CanvasOp :=
  [CanvasOp.setFill (colors.get? 0), CanvasOp.fillShape] ++
    layers.flatMap (fun l => [CanvasOp.setFill (colors.get? l), CanvasOp.fillShape])

/-- Replay fill-relevant operations against the canvas `fillStyle` register:
assigning a non-color (`undefined`) is silently ignored by the canvas, so the
previous style is kept.  Returns the style active at each fill. -/
def emittedFills : List CanvasOp → String → List String
  | [], _ => []
  | CanvasOp.setFill c :: rest, cur => emittedFills rest (c.getD cur)
  | CanvasOp.fillShape :: rest, cur => cur :: emittedFills rest cur

/-- Fill trace of Woodland `generate` (canvas default fill style is black). -/
def woodlandEmittedFills (colors : List String) : List String :=
  emittedFills (familyOps (woodlandLayerCalls colors.length) colors) "#000000"

/-- Fill trace of Flecktarn `generate`. -/
def flecktarnEmittedFills (colors : List String) : List String :=
  emittedFills (familyOps (flecktarnLayerCalls colors.length) colors) "#000000"

/-- Fill trace of Tiger `generate`. -/
def tigerEmittedFills (colors : List String) : List String :=
  emittedFills (familyOps (tigerLayerCalls colors.length) colors) "#000000"

/-- Fill trace of Urban `generate`. -/
def urbanEmittedFills (colors : List String) : List String :=
  emittedFills (familyOps (urbanLayerCalls colors.length) colors) "#000000"

/-- Fill trace of Digital `generate`. -/
def digitalEmittedFills (colors : List String) : List String :=
  emittedFills (familyOps (digitalLayerCalls colors.length) colors) "#000000"

/-- Fill trace of Desert `generate`. -/
def desertEmittedFills (colors : List String) : List String :=
  emittedFills (familyOps (desertLayerCalls colors.length) colors) "#000000"

/- ## Digital grid smoother (digital.ts: enhanceShapes / getNeighbors) -/

/-- The 8 neighbor offsets `(xOffset, yOffset)` in source iteration order
(`yOffset` outer from −1 to 1, `xOffset` inner, center skipped). -/
def neighborOffsets : List (ℤ × ℤ) :=
  [(-1, -1), (0, -1), (1, -1), (-1, 0), (1, 0), (-1, 1), (0, 1), (1, 1)]

/-- JS `%` on the nonnegative operands produced by `(i + off + m) % m`. -/
def wrapIdx (i : ℤ) (m : ℕ) : ℕ :=
  (i.emod m).toNat

/-- `getNeighbors(map, x, y, rows, cols)`: the 8 surrounding cell values with
wraparound, `nx = (x + xOffset + cols) % cols`, `ny = (y + yOffset + rows) % rows`. -/
def getNeighbors (g : ℕ → ℕ → ℕ) (rows cols x y : ℕ) : List ℕ :=
  neighborOffsets.map fun d =>
    g (wrapIdx ((y : ℤ) + d.2 + rows) rows) (wrapIdx ((x : ℤ) + d.1 + cols) cols)

/-- The distinct neighbor values in ascending order: JS `Object.entries` on
an object keyed by small nonnegative integers enumerates the keys in
ascending numeric order. -/
def sortedKeys (l : List ℕ) : List ℕ :=
  (List.range (l.foldr max 0 + 1)).filter fun v => l.contains v

/-- The `mostCommonValue` / `highestCount` scan of `enhanceShapes`: starting
from `(currentValue, 0)`, take each distinct neighbor value in enumeration
order and keep it when its count strictly exceeds the running best. -/
def mostCommonScan (l : List ℕ) (cur : ℕ) : ℕ × ℕ :=
  (sortedKeys l).foldl
    (fun acc v => if acc.2 < l.count v then (v, l.count v) else acc) (cur, 0)

/-- One cell of one cellular-automata pass: if fewer than 3 neighbors share
the current value, and the most common neighbor value has count ≥ 4, the
cell becomes that value; otherwise it is left unchanged. -/
def stepCell (g : ℕ → ℕ → ℕ) (rows cols x y : ℕ) : ℕ :=
  let ns := getNeighbors g rows cols x y
  let cur := g y x
  if ns.count cur < 3 then
    let mc := mostCommonScan ns cur
    if 4 ≤ mc.2 then mc.1 else cur
  else cur

/-- One full synchronous pass over the grid (reads the old grid everywhere;
cells outside the `rows × cols` domain are untouched). -/
def smoothPass (g : ℕ → ℕ → ℕ) (rows cols : ℕ) : ℕ → ℕ → ℕ :=
  fun y x => if y < rows ∧ x < cols then stepCell g rows cols x y else g y x

/-- Iterate `smoothPass`; after each pass the result becomes the input map,
as `enhanceShapes` copies `result` back into `map`. -/
def smoothIter (rows cols : ℕ) : ℕ → (ℕ → ℕ → ℕ) → (ℕ → ℕ → ℕ)
  | 0, g => g
  | k + 1, g => smoothIter rows cols k (smoothPass g rows cols)

/-- `enhanceShapes`: `iterations = Math.max(1, Math.floor(complexity / 25))`
passes of the automaton. -/
def enhanceShapes (g : ℕ → ℕ → ℕ) (rows cols complexity : ℕ) : ℕ → ℕ → ℕ :=
  smoothIter rows cols (max 1 (complexity / 25)) g

/-- The largest number of occurrences any single value has in `l`. -/
def maxFreq (l : List ℕ) : ℕ :=
  (l.map fun v => l.count v).foldr max 0

/-- Concrete 3×3 grid with a single isolated cell, for evaluating the
smoother rule. -/
def isolatedGrid : ℕ → ℕ → ℕ :=
  fun y x => if y = 1 ∧ x = 1 then 5 else 7

/- ## Raster model: pixels, Uint8ClampedArray storage -/

/-- One RGBA sample of the canvas `ImageData` buffer. -/
structure Pixel where
  r : ℕ
  g : ℕ
  b : ℕ
  a : ℕ
deriving DecidableEq

/-- A raster addressed by column and row. -/
def Image : Type :=
  ℕ → ℕ → Pixel

/-- Rounding used when a JS number is stored into a `Uint8ClampedArray`
entry: round to nearest, ties to even. -/
def roundTiesEven (q : ℚ) : ℤ :=
  let f := ⌊q⌋
  if q - f < 1 / 2 then f
  else if 1 / 2 < q - f then f + 1
  else if f % 2 = 0 then f else f + 1

/-- Storing a computed channel value: the source clamps with
`Math.max(0, Math.min(255, v))` and the typed array rounds on assignment. -/
def byteStore (q : ℚ) : ℕ :=
  (roundTiesEven (max 0 (min 255 q))).toNat

/- ## Post-processing (applyPostProcessing in PatternCanvas) -/

/-- `contrastFactor = 1 + (contrast - 50) / 100`. -/
def contrastFactor (c : ℕ) : ℚ :=
  1 + ((c : ℚ) - 50) / 100

/-- Contrast step per channel: `newValue = 128 + (value - 128) * contrastFactor`,
clamped to the valid range and stored. -/
def contrastChannel (c v : ℕ) : ℕ :=
  byteStore (128 + ((v : ℚ) - 128) * contrastFactor c)

/-- Contrast applied to the RGB channels of a pixel; alpha untouched. -/
def contrastPixel (c : ℕ) (p : Pixel) : Pixel :=
  { r := contrastChannel c p.r
    g := contrastChannel c p.g
    b := contrastChannel c p.b
    a := p.a }

/-- The whole-raster contrast pass. -/
def contrastImage (c : ℕ) (img : Image) : Image :=
  fun x y => contrastPixel c (img x y)

/-- Unsharp-mask strength `amount = (sharpness - 50) / 50 * 0.8`. -/
def sharpenAmount (s : ℕ) : ℚ :=
  ((s : ℚ) - 50) / 50 * 0.8

/-- Unsharp-mask step per channel:
`data = clamp(original + (original - blurred) * amount)`. -/
def sharpenChannel (s orig blur : ℕ) : ℕ :=
  byteStore ((orig : ℚ) + ((orig : ℚ) - (blur : ℚ)) * sharpenAmount s)

/-- `applyPostProcessing(canvas, ctx, contrast, sharpness)`: contrast on every
RGB channel, then — only when `sharpness > 50` — an unsharp mask against a
blurred copy of the contrasted raster.  The browser's `blur(1px)` canvas
filter is not repository code and enters as the `blur` parameter. -/
def applyPostProcessing (c s : ℕ) (blur : Image → Image) (img : Image) : Image :=
  let con : Image := fun x y => contrastPixel c (img x y)
  if 50 < s then
    let bl := blur con
    fun x y =>
      { r := sharpenChannel s (con x y).r (bl x y).r
        g := sharpenChannel s (con x y).g (bl x y).g
        b := sharpenChannel s (con x y).b (bl x y).b
        a := (con x y).a }
  else con

/- ## Texture overlays (basePattern.addNoiseTexture, urban.addUrbanTexture,
desert.addSandTexture).  The seeded Perlin singleton consumed by these
passes enters as the `noise` parameter. -/

/-- `addNoiseTexture(intensity, noiseScale)`: per pixel,
`noise = perlin.noise2D(x*s, y*s) * 2 - 1`, added (scaled by
`intensity * 255`) to each RGB channel. -/
def addNoiseTexture (intensity noiseScale : ℚ) (noise : ℚ → ℚ → ℚ)
    (img : Image) : Image :=
  fun x y =>
    let n := noise ((x : ℚ) * noiseScale) ((y : ℚ) * noiseScale) * 2 - 1
    let p := img x y
    { r := byteStore ((p.r : ℚ) + n * intensity * 255)
      g := byteStore ((p.g : ℚ) + n * intensity * 255)
      b := byteStore ((p.b : ℚ) + n * intensity * 255)
      a := p.a }

/-- `addUrbanTexture(intensity, noiseScale)`: two noise frequencies mixed
`0.6 / 0.4`, applied to each RGB channel. -/
def addUrbanTexture (intensity noiseScale : ℚ) (noise : ℚ → ℚ → ℚ)
    (img : Image) : Image :=
  fun x y =>
    let n1 := noise ((x : ℚ) * noiseScale) ((y : ℚ) * noiseScale) * 2 - 1
    let n2 := noise ((x : ℚ) * noiseScale * 3) ((y : ℚ) * noiseScale * 3) * 2 - 1
    let u := n1 * 0.6 + n2 * 0.4
    let p := img x y
    { r := byteStore ((p.r : ℚ) + u * intensity * 255)
      g := byteStore ((p.g : ℚ) + u * intensity * 255)
      b := byteStore ((p.b : ℚ) + u * intensity * 255)
      a := p.a }

/-- `addSandTexture(intensity, noiseScale)`: `sandNoiseScale = noiseScale * 5`,
two frequencies mixed `0.7 / 0.3`, applied to each RGB channel. -/
def addSandTexture (intensity noiseScale : ℚ) (noise : ℚ → ℚ → ℚ)
    (img : Image) : Image :=
  fun x y =>
    let sns := noiseScale * 5
    let n1 := noise ((x : ℚ) * sns) ((y : ℚ) * sns) * 2 - 1
    let n2 := noise ((x : ℚ) * sns * 2) ((y : ℚ) * sns * 2) * 2 - 1
    let sand := n1 * 0.7 + n2 * 0.3
    let p := img x y
    { r := byteStore ((p.r : ℚ) + sand * intensity * 255)
      g := byteStore ((p.g : ℚ) + sand * intensity * 255)
      b := byteStore ((p.b : ℚ) + sand * intensity * 255)
      a := p.a }

/- ## Seam verifier (verifySeamless in patternUtils.ts) -/

/-- The three channel values the verifier reads from a pixel (`j < 3`,
alpha ignored). -/
def chanTriple (p : Pixel) : List ℕ :=
  [p.r, p.g, p.b]

/-- Channel-by-channel comparison pairs along one pair of opposite edges. -/
def edgeChanPairs (ea eb : ℕ → Pixel) (len : ℕ) : List (ℕ × ℕ) :=
  (List.range len).flatMap fun i => (chanTriple (ea i)).zip (chanTriple (eb i))

/-- Absolute difference of two channel values. -/
def chanDiff (u v : ℕ) : ℕ :=
  max u v - min u v

/-- `maxMismatchTolerance = Math.floor((width + height) * 0.02)`. -/
def seamTol (w h : ℕ) : ℕ :=
  2 * (w + h) / 100

/-- The verifier's per-axis loop: on each comparison whose difference exceeds
10 the counter increments, and as soon as it exceeds the tolerance the axis
is declared non-seamless and the loop exits. -/
def axisGo (tol : ℕ) : List (ℕ × ℕ) → ℕ → Bool
  | [], _ => true
  | p :: rest, cnt =>
    if 10 < chanDiff p.1 p.2 then
      if tol < cnt + 1 then false else axisGo tol rest (cnt + 1)
    else axisGo tol rest cnt

/-- Left edge (`x = 0`) against right edge (`x = width - 1`), one pixel per
row, three channels each. -/
def lrPairs (w h : ℕ) (img : Image) : List (ℕ × ℕ) :=
  edgeChanPairs (fun y => img 0 y) (fun y => img (w - 1) y) h

/-- Top edge (`y = 0`) against bottom edge (`y = height - 1`). -/
def tbPairs (w h : ℕ) (img : Image) : List (ℕ × ℕ) :=
  edgeChanPairs (fun x => img x 0) (fun x => img x (h - 1)) w

/-- `verifySeamless(canvas)`: both axes checked against the shared tolerance. -/
def verifySeamless (w h : ℕ) (img : Image) : Bool :=
  axisGo (seamTol w h) (lrPairs w h img) 0 &&
    axisGo (seamTol w h) (tbPairs w h img) 0

/-- Mismatching channel comparisons on one axis. -/
def mismatchCount (l : List (ℕ × ℕ)) : ℕ :=
  l.countP fun p => decide (10 < chanDiff p.1 p.2)

/-- Modelled from the spec: the claimed verifier "tolerates up to 2% of the
compared samples of each axis", i.e. each axis's tolerance is 2% of that
axis's own channel comparisons, not of `width + height`. -/
def claimSeamless (w h : ℕ) (img : Image) : Bool :=
  decide (mismatchCount (lrPairs w h img) ≤ 2 * (lrPairs w h img).length / 100) &&
    decide (mismatchCount (tbPairs w h img) ≤ 2 * (tbPairs w h img).length / 100)

/-- Concrete 100×20 raster: black except one pixel on the right edge, giving
exactly two mismatching channel comparisons on the left-right axis. -/
def seamTestImage : Image :=
  fun x y => if x = 99 ∧ y = 10 then ⟨100, 100, 0, 255⟩ else ⟨0, 0, 0, 255⟩

/-- Flat raster used to evaluate the post-processing pipeline. -/
def flatImage : Image :=
  fun _ _ => ⟨7, 130, 255, 9⟩

/- ## Perlin noise (perlin.ts) -/

/-- The constant `permutation` array of the `PerlinNoise` class (never
mutated after construction). -/
def basePermutation : List ℕ :=
  [151, 160, 137, 91, 90, 15, 131, 13, 201, 95, 96, 53, 194, 233, 7, 225,
   140, 36, 103, 30, 69, 142, 8, 99, 37, 240, 21, 10, 23, 190, 6, 148,
   247, 120, 234, 75, 0, 26, 197, 62, 94, 252, 219, 203, 117, 35, 11, 32,
   57, 177, 33, 88, 237, 149, 56, 87, 174, 20, 125, 136, 171, 168, 68, 175,
   74, 165, 71, 134, 139, 48, 27, 166, 77, 146, 158, 231, 83, 111, 229, 122,
   60, 211, 133, 230, 220, 105, 92, 41, 55, 46, 245, 40, 244, 102, 143, 54,
   65, 25, 63, 161, 1, 216, 80, 73, 209, 76, 132, 187, 208, 89, 18, 169,
   200, 196, 135, 130, 116, 188, 159, 86, 164, 100, 109, 198, 173, 186, 3, 64,
   52, 217, 226, 250, 124, 123, 5, 202, 38, 147, 118, 126, 255, 82, 85, 212,
   207, 206, 59, 227, 47, 16, 58, 17, 182, 189, 28, 42, 223, 183, 170, 213,
   119, 248, 152, 2, 44, 154, 163, 70, 221, 153, 101, 155, 167, 43, 172, 9,
   129, 22, 39, 253, 19, 98, 108, 110, 79, 113, 224, 232, 178, 185, 112, 104,
   218, 246, 97, 228, 251, 34, 242, 193, 238, 210, 144, 12, 191, 179, 162, 241,
   81, 51, 145, 235, 249, 14, 239, 107, 49, 192, 214, 31, 181, 199, 106, 157,
   184, 84, 204, 176, 115, 121, 50, 45, 127, 4, 150, 254, 138, 236, 205, 93,
   222, 114, 67, 29, 24, 72, 243, 141, 128, 195, 78, 66, 215, 61, 156, 180]

/-- The twelve `_grad3` gradients; only the first two components are read by
`_dot2`, so the unused third component is dropped. -/
def grad3 : List (ℤ × ℤ) :=
  [(1, 1), (-1, 1), (1, -1), (-1, -1),
   (1, 0), (-1, 0), (1, 0), (-1, 0),
   (0, 1), (0, -1), (0, 1), (0, -1)]

/-- JS `ToInt32` (the conversion applied to every bitwise operand). -/
def toInt32 (n : ℤ) : ℤ :=
  (n + 2 ^ 31).emod (2 ^ 32) - 2 ^ 31

/-- The unsigned 32-bit representation of an integer. -/
def toUInt32n (n : ℤ) : ℕ :=
  (n.emod (2 ^ 32)).toNat

/-- JS `a | b`. -/
def lor32 (a b : ℤ) : ℤ :=
  toInt32 ((Nat.lor (toUInt32n a) (toUInt32n b) : ℕ) : ℤ)

/-- JS `n << 8`. -/
def shl8_32 (n : ℤ) : ℤ :=
  toInt32 (toInt32 n * 256)

/-- JS `k & 255`. -/
def lowByte (k : ℤ) : ℕ :=
  ((toInt32 k).emod 256).toNat

/-- JS `(k >> 8) & 255` (arithmetic shift is flooring division). -/
def highByte (k : ℤ) : ℕ :=
  (((toInt32 k).fdiv 256).emod 256).toNat

/-- The integer key the `seed` method derives from its argument: fractional
seeds in `(0, 1)` are scaled by 65536, the result floored, and values below
256 are duplicated into the next byte by `seed |= seed << 8`. -/
def seedKey (s : ℚ) : ℤ :=
  let s1 : ℚ := if 0 < s ∧ s < 1 then s * 65536 else s
  let n : ℤ := ⌊s1⌋
  if n < 256 then lor32 n (shl8_32 n) else n

/-- The two key bytes actually consumed by the table rebuild:
`(seed >> 8) & 255` for even indices, `seed & 255` for odd indices. -/
def seedKeyBytes (s : ℚ) : ℕ × ℕ :=
  (highByte (seedKey s), lowByte (seedKey s))

/-- `v = permutation[i] ^ (i & 1 ? seed & 255 : (seed >> 8) & 255)` for each
of the 256 table positions. -/
def permBase256 (P : List ℕ) (hi lo : ℕ) : List ℕ :=
  (List.range 256).map fun i =>
    if i % 2 = 1 then P.getD i 0 ^^^ lo else P.getD i 0 ^^^ hi

/-- The duplicated 512-entry `perm` table (`perm[i] = perm[i + 256] = v`). -/
def buildPerm (P : List ℕ) (hi lo : ℕ) : List ℕ :=
  (List.range 512).map fun i => (permBase256 P hi lo).getD (i % 256) 0

/-- The duplicated 512-entry `gradP` table (`gradP[i] = grad3[v % 12]`). -/
def buildGradP (P : List ℕ) (hi lo : ℕ) : List (ℤ × ℤ) :=
  (List.range 512).map fun i =>
    grad3.getD ((permBase256 P hi lo).getD (i % 256) 0 % 12) (0, 0)

/-- The state of one `PerlinNoise` instance. -/
structure PerlinField where
  permutation : List ℕ
  perm : List ℕ
  gradP : List (ℤ × ℤ)
deriving DecidableEq

/-- The `seed(value)` method: rebuilds `perm` and `gradP` from the immutable
`permutation` array and the derived key; prior `perm`/`gradP` contents are
never read. -/
def seedPerlin (st : PerlinField) (s : ℚ) : PerlinField :=
  { st with
    perm := buildPerm st.permutation (seedKeyBytes s).1 (seedKeyBytes s).2
    gradP := buildGradP st.permutation (seedKeyBytes s).1 (seedKeyBytes s).2 }

/-- The constructed singleton: arrays allocated, then `seed(0)`. -/
def mkPerlin : PerlinField :=
  seedPerlin
    { permutation := basePermutation
      perm := List.replicate 512 0
      gradP := List.replicate 512 (0, 0) } 0

/-- The quintic fade curve `t³(t(6t − 15) + 10)`. -/
def fadeQ (t : ℚ) : ℚ :=
  t * t * t * (t * (t * 6 - 15) + 10)

/-- Linear interpolation `(1 − t)a + tb`. -/
def lerpQ (a b t : ℚ) : ℚ :=
  (1 - t) * a + t * b

/-- `_dot2`. -/
def dot2 (g : ℤ × ℤ) (x y : ℚ) : ℚ :=
  (g.1 : ℚ) * x + (g.2 : ℚ) * y

/-- `noise2D` as a function of the two lookup tables: unit-cell corner
hashing, fade, and bilinear interpolation of the corner gradients. -/
def noiseCore (perm : List ℕ) (gradP : List (ℤ × ℤ)) (x y : ℚ) : ℚ :=
  let Xf : ℤ := ⌊x⌋
  let Yf : ℤ := ⌊y⌋
  let xr := x - Xf
  let yr := y - Yf
  let X := lowByte Xf
  let Y := lowByte Yf
  let n00 := dot2 (gradP.getD (X + perm.getD Y 0) (0, 0)) xr yr
  let n01 := dot2 (gradP.getD (X + perm.getD (Y + 1) 0) (0, 0)) xr (yr - 1)
  let n10 := dot2 (gradP.getD (X + 1 + perm.getD Y 0) (0, 0)) (xr - 1) yr
  let n11 := dot2 (gradP.getD (X + 1 + perm.getD (Y + 1) 0) (0, 0)) (xr - 1) (yr - 1)
  let u := fadeQ xr
  let v := fadeQ yr
  lerpQ (lerpQ n00 n10 u) (lerpQ n01 n11 u) v

/-- The public `noise2D(x, y)`: reads only `perm` and `gradP`. -/
def noise2D (st : PerlinField) (x y : ℚ) : ℚ :=
  noiseCore st.perm st.gradP x y

/- ## Shape replication across the 3×3 tiling grid (urban.ts drawUrbanTriangle)

The trigonometry of the source (`Math.PI`, `Math.cos`, `Math.sin`) is platform
arithmetic, so it enters as parameters over an arbitrary field; the stream of
`Math.random()` results enters as `rnd`, with `rnd k` the k-th call made by
`drawUrbanTriangle` (0–2 for size and center, then three per replica of the
offset loop, in loop order). -/

/-- A JS loop `for (v = start; v <= stop; v += step)` over the integral
canvas dimensions, with enough fuel for the three iterations the tiling
loops perform. -/
def jsLoopSteps (fuel : ℕ) (start stop step : ℤ) : List ℤ :=
  match fuel with
  | 0 => []
  | fuel + 1 =>
    if start ≤ stop then start :: jsLoopSteps fuel (start + step) stop step
    else []

/-- The offsets visited by the replication loops
`for (offsetX = -width; offsetX <= width; offsetX += width)` (outer) and
`for (offsetY = -height; offsetY <= height; offsetY += height)` (inner). -/
def tileOffsets (w h : ℤ) : List (ℤ × ℤ) :=
  (jsLoopSteps 4 (-w) w w).flatMap fun ox =>
    (jsLoopSteps 4 (-h) h h).map fun oy => (ox, oy)

/-- The triangle drawn by the k-th iteration of `drawUrbanTriangle`'s
replication loop: `size`, `centerX`, `centerY` are fixed before the loop
(random calls 0–2), but the three corner angles consume fresh
`Math.random()` results (calls `3 + 3k` to `5 + 3k`) inside the loop. -/
def urbanTriangleReplica {R : Type} [Field R] (pi : R) (cos sin : R → R)
    (rnd : ℕ → ℚ) (blockSize : ℚ) (w h : ℤ) (k : ℕ) :
    (ℤ × ℤ) × ((R × R) × (R × R) × (R × R)) :=
  let size : ℚ := blockSize * (2 + rnd 0 * 3)
  let cX : ℚ := rnd 1 * w
  let cY : ℚ := rnd 2 * h
  let off := (tileOffsets w h).getD k (0, 0)
  let x : ℚ := cX + off.1
  let y : ℚ := cY + off.2
  let a1 : R := (rnd (3 + 3 * k) : R) * pi * 2
  let a2 : R := a1 + pi * ((1 : R) / 2 + (rnd (4 + 3 * k) : R) * (1 / 2))
  let a3 : R := a2 + pi * ((1 : R) / 2 + (rnd (5 + 3 * k) : R) * (1 / 2))
  (off,
    (((x : R) + cos a1 * (size : R), (y : R) + sin a1 * (size : R)),
      ((x : R) + cos a2 * (size : R), (y : R) + sin a2 * (size : R)),
      ((x : R) + cos a3 * (size : R), (y : R) + sin a3 * (size : R))))

/-- The first corner of the k-th replica, translated back by the replica's
tile offset — if the nine replicas drew the identical shape, this would not
depend on `k`. -/
def relFirstVertex {R : Type} [Field R] (pi : R) (cos sin : R → R)
    (rnd : ℕ → ℚ) (blockSize : ℚ) (w h : ℤ) (k : ℕ) : R × R :=
  let d := urbanTriangleReplica pi cos sin rnd blockSize w h k
  (d.2.1.1 - (d.1.1 : R), d.2.1.2 - (d.1.2 : R))

/-- Concrete random stream: every `Math.random()` result is 0 except the
seventh (the first corner angle of the second replica), which is 1/2. -/
def rndC2 : ℕ → ℚ :=
  fun k => if k = 6 then 1 / 2 else 0

/- ## Theorems -/

/- ### Fold helpers for the most-common-neighbor scan -/

theorem le_foldr_max {l : List ℕ} {a : ℕ} (h : a ∈ l) : a ≤ l.foldr max 0 := by
  induction l with
  | nil => cases h
  | cons b t ih =>
    rcases List.mem_cons.mp h with rfl | hm
    · exact le_max_left _ _
    · exact le_trans (ih hm) (le_max_right _ _)

theorem foldr_max_le {l : List ℕ} {b : ℕ} :
    l.foldr max 0 ≤ b ↔ ∀ a ∈ l, a ≤ b := by
  induction l with
  | nil => simp
  | cons c t ih => simp [max_le_iff, ih]

theorem mem_sortedKeys {l : List ℕ} {v : ℕ} : v ∈ sortedKeys l ↔ v ∈ l := by
  constructor
  · intro h
    have := (List.mem_filter.mp h).2
    simpa [List.contains] using this
  · intro h
    refine List.mem_filter.mpr ⟨List.mem_range.mpr ?_, ?_⟩
    · exact Nat.lt_succ_of_le (le_foldr_max h)
    · simpa [List.contains] using h

theorem foldr_max_comm (l : List ℕ) (a b : ℕ) :
    l.foldr max (max a b) = max a (l.foldr max b) := by
  induction l with
  | nil => rfl
  | cons c t ih => simp [List.foldr, ih, max_left_comm]

theorem foldr_max_base (l : List ℕ) (a : ℕ) :
    l.foldr max a = max a (l.foldr max 0) := by
  have := foldr_max_comm l a 0
  simpa using this

theorem scan_foldl_snd (l : List ℕ) :
    ∀ (keys : List ℕ) (acc : ℕ × ℕ),
      ((keys.foldl
          (fun acc v => if acc.2 < l.count v then (v, l.count v) else acc)
          acc).2) = (keys.map fun v => l.count v).foldr max acc.2 := by
  intro keys
  induction keys with
  | nil => intro acc; rfl
  | cons v ks ih =>
    intro acc
    have hstep :
        ((fun acc w => if acc.2 < l.count w then (w, l.count w) else acc) acc v).2 =
          max acc.2 (l.count v) := by
      by_cases h : acc.2 < l.count v
      · simp [h, Nat.max_eq_right (le_of_lt h)]
      · simp [h, Nat.max_eq_left (le_of_not_lt h)]
    calc ((v :: ks).foldl _ acc).2
        = (ks.map fun w => l.count w).foldr max
            (((fun acc w => if acc.2 < l.count w then (w, l.count w) else acc) acc v).2) :=
          ih _
      _ = (ks.map fun w => l.count w).foldr max (max acc.2 (l.count v)) := by
          rw [hstep]
      _ = max acc.2 ((ks.map fun w => l.count w).foldr max (l.count v)) :=
          foldr_max_comm _ _ _
      _ = ((v :: ks).map fun w => l.count w).foldr max acc.2 := by
          rw [foldr_max_base _ (l.count v)]
          simp only [List.map_cons, List.foldr_cons]
          rw [foldr_max_base _ acc.2]
          rw [max_left_comm]

theorem mostCommonScan_snd (l : List ℕ) (cur : ℕ) :
    (mostCommonScan l cur).2 = maxFreq l := by
  rw [mostCommonScan, scan_foldl_snd l (sortedKeys l) (cur, 0)]
  refine le_antisymm (foldr_max_le.mpr ?_) (foldr_max_le.mpr ?_)
  · intro a ha
    rcases List.mem_map.mp ha with ⟨v, hv, rfl⟩
    exact le_foldr_max (List.mem_map.mpr ⟨v, mem_sortedKeys.mp hv, rfl⟩)
  · intro a ha
    rcases List.mem_map.mp ha with ⟨v, hv, rfl⟩
    exact le_foldr_max (List.mem_map.mpr ⟨v, mem_sortedKeys.mpr hv, rfl⟩)

theorem scan_foldl_fst (l : List ℕ) :
    ∀ (keys : List ℕ) (acc : ℕ × ℕ),
      l.count (keys.foldl
          (fun acc v => if acc.2 < l.count v then (v, l.count v) else acc)
          acc).1 =
        (keys.foldl
          (fun acc v => if acc.2 < l.count v then (v, l.count v) else acc)
          acc).2 ∨
        keys.foldl
          (fun acc v => if acc.2 < l.count v then (v, l.count v) else acc)
          acc = acc := by
  intro keys
  induction keys with
  | nil => intro acc; exact Or.inr rfl
  | cons v ks ih =>
    intro acc
    rw [List.foldl_cons]
    by_cases h : acc.2 < l.count v
    · rw [if_pos h]
      rcases ih (v, l.count v) with hl | he
      · exact Or.inl hl
      · exact Or.inl (by rw [he])
    · rw [if_neg h]
      exact ih acc

theorem mostCommonScan_count (l : List ℕ) (cur : ℕ)
    (h : 0 < (mostCommonScan l cur).2) :
    l.count (mostCommonScan l cur).1 = (mostCommonScan l cur).2 := by
  rcases scan_foldl_fst l (sortedKeys l) (cur, 0) with hl | he
  · exact hl
  · exfalso
    rw [mostCommonScan] at h
    rw [he] at h
    exact Nat.lt_irrefl 0 h

/- ### C3 -/

/-- C3: in every smoothing pass of the Digital family's grid smoother, a
cell's value is reassigned exactly when fewer than 3 of its 8 toroidal
neighbors share its current value and the most frequent neighbor value
occurs in at least 4 of the 8 neighbors, in which case the cell takes a
value of that maximal neighbor frequency; consequently `enhanceShapes` on an
all-identical grid returns the grid unchanged. -/
theorem digital_smoother_rule_and_constant_noop
    (g : ℕ → ℕ → ℕ) (rows cols x y cx v : ℕ) :
    (stepCell g rows cols x y ≠ g y x ↔
        (getNeighbors g rows cols x y).count (g y x) < 3 ∧
          4 ≤ maxFreq (getNeighbors g rows cols x y)) ∧
      ((getNeighbors g rows cols x y).count (g y x) < 3 ∧
          4 ≤ maxFreq (getNeighbors g rows cols x y) →
        (getNeighbors g rows cols x y).count (stepCell g rows cols x y) =
          maxFreq (getNeighbors g rows cols x y)) ∧
      enhanceShapes (fun _ _ => v) rows cols cx = (fun _ _ => v) := by
  set ns := getNeighbors g rows cols x y with hns
  set cur := g y x with hcur
  have hsnd := mostCommonScan_snd ns cur
  have hchanged : ns.count cur < 3 ∧ 4 ≤ maxFreq ns →
      stepCell g rows cols x y = (mostCommonScan ns cur).1 ∧
        ns.count (mostCommonScan ns cur).1 = maxFreq ns := by
    rintro ⟨h3, h4⟩
    have h4' : 4 ≤ (mostCommonScan ns cur).2 := by rw [hsnd]; exact h4
    have hcnt := mostCommonScan_count ns cur (lt_of_lt_of_le (by norm_num) h4')
    refine ⟨?_, by rw [hcnt, hsnd]⟩
    rw [stepCell, ← hns, ← hcur]
    simp [h3, h4']
  constructor
  · constructor
    · intro hne
      by_contra hnot
      apply hne
      rw [stepCell, ← hns, ← hcur]
      by_cases h3 : ns.count cur < 3
      · have h4 : ¬ 4 ≤ maxFreq ns := fun h => hnot ⟨h3, h⟩
        have h4' : ¬ 4 ≤ (mostCommonScan ns cur).2 := by rw [hsnd]; exact h4
        simp [h3, h4']
      · simp [h3]
    · rintro ⟨h3, h4⟩
      obtain ⟨heq, hcnt⟩ := hchanged ⟨h3, h4⟩
      rw [heq]
      intro hbad
      rw [hbad] at hcnt
      omega
  · constructor
    · intro hc
      obtain ⟨heq, hcnt⟩ := hchanged hc
      rw [heq, hcnt]
    · -- constant grids are fixed points of every pass
      have hstepv : ∀ x' y', stepCell (fun _ _ => v) rows cols x' y' = v := by
        intro x' y'
        have hn : getNeighbors (fun _ _ => v) rows cols x' y' =
            List.replicate 8 v := by
          simp [getNeighbors, neighborOffsets, List.replicate]
        rw [stepCell]
        simp [hn, List.count_replicate]
      have hpass : smoothPass (fun _ _ => v) rows cols = (fun _ _ => v) := by
        funext y' x'
        by_cases h : y' < rows ∧ x' < cols
        · simp [smoothPass, h, hstepv]
        · simp [smoothPass, h]
      have hiter : ∀ k, smoothIter rows cols k (fun _ _ => v) = (fun _ _ => v) := by
        intro k
        induction k with
        | zero => rfl
        | succ m ih => rw [smoothIter, hpass, ih]
      exact hiter _

/-- Witness for C3: on a 3×3 grid whose center cell value 5 is surrounded by
eight 7s, the rule fires and the center is reassigned. -/
theorem digital_smoother_rule_witness :
    stepCell isolatedGrid 3 3 1 1 ≠ isolatedGrid 1 1 :=
  (digital_smoother_rule_and_constant_noop isolatedGrid 3 3 1 1 0 0).1.mpr
    (by decide)

/- ### C4 -/

theorem emittedFills_layers_length (colors : List String) :
    ∀ (ls : List ℕ) (st : String),
      (emittedFills (ls.flatMap fun l =>
        [CanvasOp.setFill (colors.get? l), CanvasOp.fillShape]) st).length =
        ls.length := by
  intro ls
  induction ls with
  | nil => intro st; rfl
  | cons a t ih =>
    intro st
    show ((colors.get? a).getD st ::
        emittedFills (t.flatMap fun l =>
          [CanvasOp.setFill (colors.get? l), CanvasOp.fillShape])
          ((colors.get? a).getD st)).length = (a :: t).length
    rw [List.length_cons, List.length_cons, ih]

theorem emittedFills_familyOps_length (layers : List ℕ) (colors : List String)
    (init : String) :
    (emittedFills (familyOps layers colors) init).length = 1 + layers.length := by
  show ((colors.get? 0).getD init ::
      emittedFills (layers.flatMap fun l =>
        [CanvasOp.setFill (colors.get? l), CanvasOp.fillShape])
        ((colors.get? 0).getD init)).length = 1 + layers.length
  rw [List.length_cons, emittedFills_layers_length colors layers]
  omega

/-- C4 counterexample: with a 2-color palette, Woodland still invokes its
layer-2 and layer-3 shape drawing (color indices ≥ palette length), and the
stale canvas fill style makes those layers paint in color 1 — the layers are
not skipped. -/
theorem woodland_layer_skip_counterexample :
    2 ∈ woodlandLayerCalls 2 ∧ ¬ (2 < 2) ∧
      woodlandEmittedFills ["a", "b"] = ["a", "b", "b", "b"] :=
  ⟨by decide, by decide, rfl⟩

/-- C4 (amended): generation never fails for any palette — every family's
fill schedule runs to completion, emitting the base fill plus one fill batch
per scheduled layer; Urban, Digital and Desert do skip unavailable
higher-index layers, while Woodland, Flecktarn (layers 1–3) and Tiger
(layer 1) invoke them regardless of palette length — with a single color
the silent fill-style fallback makes every fill use that color, so the
raster is predominantly that color. -/
theorem palette_degradation_amended (n : ℕ) (c : String) (colors : List String) :
    ((urbanLayerCalls n).all fun l => decide (l < n)) = true ∧
      ((digitalLayerCalls n).all fun l => decide (l < n)) = true ∧
      ((desertLayerCalls n).all fun l => decide (l < n)) = true ∧
      1 ∈ tigerLayerCalls n ∧
      woodlandEmittedFills [c] = [c, c, c, c] ∧
      flecktarnEmittedFills [c] = [c, c, c, c] ∧
      tigerEmittedFills [c] = [c, c] ∧
      (woodlandEmittedFills colors).length =
        1 + (woodlandLayerCalls colors.length).length ∧
      (flecktarnEmittedFills colors).length =
        1 + (flecktarnLayerCalls colors.length).length ∧
      (tigerEmittedFills colors).length =
        1 + (tigerLayerCalls colors.length).length ∧
      (urbanEmittedFills colors).length =
        1 + (urbanLayerCalls colors.length).length ∧
      (digitalEmittedFills colors).length =
        1 + (digitalLayerCalls colors.length).length ∧
      (desertEmittedFills colors).length =
        1 + (desertLayerCalls colors.length).length := by
  refine ⟨?_, ?_, ?_, by simp [tigerLayerCalls], rfl, rfl, rfl,
    emittedFills_familyOps_length _ _ _, emittedFills_familyOps_length _ _ _,
    emittedFills_familyOps_length _ _ _, emittedFills_familyOps_length _ _ _,
    emittedFills_familyOps_length _ _ _, emittedFills_familyOps_length _ _ _⟩
  · refine List.all_eq_true.mpr ?_
    intro l hl
    have := List.mem_range'_1.mp hl
    simp only [decide_eq_true_eq]
    omega
  · refine List.all_eq_true.mpr ?_
    intro l hl
    have := List.mem_range'_1.mp hl
    simp only [decide_eq_true_eq]
    omega
  · refine List.all_eq_true.mpr ?_
    intro l hl
    have := List.mem_range'_1.mp hl
    simp only [decide_eq_true_eq]
    omega

/-- C5 counterexample: `"DESERT"` is not one of the six recognized family
names, yet `createPattern` lowercases its argument first, so it returns a
Desert pattern (without the fallback warning), not Woodland. -/
theorem createPattern_uppercase_counterexample :
    "DESERT" ∉ sixPatternNames ∧
      createPatternFamily "DESERT" = (Family.desert, false) ∧
      createPatternFamily "DESERT" ≠ createPatternFamily "woodland" := by
  refine ⟨by decide, by decide, by decide⟩

/-- C5 (amended): every pattern-type string whose lowercased form is not one
of the six family names falls back to a Woodland pattern with the
caller-visible warning, and yields the same family as requesting
`"woodland"` directly. -/
theorem unknown_family_fallback_amended (t : String)
    (h : jsToLower t ∉ sixPatternNames) :
    createPatternFamily t = (Family.woodland, true) ∧
      (createPatternFamily t).1 = (createPatternFamily "woodland").1 := by
  simp only [sixPatternNames, List.mem_cons, List.not_mem_nil, or_false,
    not_or] at h
  obtain ⟨h1, h2, h3, h4, h5, h6⟩ := h
  have hmain : createPatternFamily t = (Family.woodland, true) := by
    simp [createPatternFamily, h1, h2, h3, h4, h5, h6]
  exact ⟨hmain, by rw [hmain]; decide⟩

/-- Witness for the amended C5 theorem at the spec's own example string. -/
theorem unknown_family_fallback_witness :
    createPatternFamily "camouflage-xyz" = (Family.woodland, true) ∧
      (createPatternFamily "camouflage-xyz").1 =
        (createPatternFamily "woodland").1 :=
  unknown_family_fallback_amended "camouflage-xyz" (by decide)

/- ### Storage-rounding helpers -/

theorem roundTiesEven_intCast (n : ℤ) : roundTiesEven (n : ℚ) = n := by
  rw [roundTiesEven]
  simp

theorem byteStore_natCast {v : ℕ} (h : v ≤ 255) : byteStore (v : ℚ) = v := by
  rw [byteStore]
  have hmin : min 255 (v : ℚ) = (v : ℚ) := by
    apply min_eq_right
    exact_mod_cast h
  have hmax : max 0 (v : ℚ) = (v : ℚ) := by
    apply max_eq_right
    positivity
  rw [hmin, hmax]
  have : roundTiesEven (v : ℚ) = (v : ℤ) := by
    exact_mod_cast roundTiesEven_intCast (v : ℤ)
  rw [this]
  exact Int.toNat_natCast v

theorem contrastChannel_fifty {v : ℕ} (h : v ≤ 255) :
    contrastChannel 50 v = v := by
  rw [contrastChannel]
  have hfac : contrastFactor 50 = 1 := by
    rw [contrastFactor]
    norm_num
  rw [hfac]
  have : (128 : ℚ) + ((v : ℚ) - 128) * 1 = (v : ℚ) := by ring
  rw [this]
  exact byteStore_natCast h

theorem contrastPixel_fifty {p : Pixel} (hr : p.r ≤ 255) (hg : p.g ≤ 255)
    (hb : p.b ≤ 255) : contrastPixel 50 p = p := by
  cases p
  simp only [contrastPixel]
  simp_all [contrastChannel_fifty]

/- ### C6 -/

/-- C6: post-processing at contrast = 50 and sharpness ≤ 50 is the identity
on the pixel data; the contrast step stores exactly
`128 + (value − 128) * (1 + (contrast − 50)/100)` clamped to the byte range;
and at sharpness ≤ 50 the unsharp-mask step never engages (the result is the
pure contrast pass, for any blur). -/
theorem postprocessing_contrast_sharpness_noop (s : ℕ) (blur : Image → Image)
    (img : Image)
    (hbounds : ∀ x y, (img x y).r ≤ 255 ∧ (img x y).g ≤ 255 ∧ (img x y).b ≤ 255)
    (hs : s ≤ 50) :
    applyPostProcessing 50 s blur img = img ∧
      (∀ c v, contrastChannel c v =
        byteStore (128 + ((v : ℚ) - 128) * (1 + ((c : ℚ) - 50) / 100))) ∧
      (∀ c blur2, applyPostProcessing c s blur2 img = contrastImage c img) := by
  have hnot : ¬ 50 < s := not_lt.mpr hs
  refine ⟨?_, fun c v => rfl, fun c blur2 => by rw [applyPostProcessing, if_neg hnot]; rfl⟩
  rw [applyPostProcessing, if_neg hnot]
  funext x y
  obtain ⟨hr, hg, hb⟩ := hbounds x y
  exact contrastPixel_fifty hr hg hb

/-- Witness for C6 on a concrete flat raster. -/
theorem postprocessing_noop_witness :
    applyPostProcessing 50 50 id flatImage = flatImage :=
  (postprocessing_contrast_sharpness_noop 50 id flatImage
    (fun x y => by refine ⟨?_, ?_, ?_⟩ <;> norm_num [flatImage]) (by decide)).1

/- ### C10 -/

/-- C10: every pixel-mutating raster pass — the fine-grain noise texture,
the urban and sand texture overlays, and the post-processing
contrast/sharpen — writes only the R, G, B channels; the alpha channel of
every pixel is left unchanged. -/
theorem alpha_channel_preserved (noise : ℚ → ℚ → ℚ) (inten nscale : ℚ)
    (img : Image) (c s : ℕ) (blur : Image → Image) (x y : ℕ) :
    (addNoiseTexture inten nscale noise img x y).a = (img x y).a ∧
      (addUrbanTexture inten nscale noise img x y).a = (img x y).a ∧
      (addSandTexture inten nscale noise img x y).a = (img x y).a ∧
      (applyPostProcessing c s blur img x y).a = (img x y).a := by
  refine ⟨rfl, rfl, rfl, ?_⟩
  by_cases h : 50 < s
  · simp only [applyPostProcessing, if_pos h]
    rfl
  · simp only [applyPostProcessing, if_neg h]
    rfl

/- ### C7 -/

theorem axisGo_eq_decide (tol : ℕ) :
    ∀ (l : List (ℕ × ℕ)) (cnt : ℕ), cnt ≤ tol →
      axisGo tol l cnt = decide (cnt + mismatchCount l ≤ tol) := by
  intro l
  induction l with
  | nil =>
    intro cnt h
    simp [axisGo, mismatchCount, h]
  | cons p rest ih =>
    intro cnt h
    by_cases hp : 10 < chanDiff p.1 p.2
    · rw [axisGo, if_pos hp]
      have hcount : mismatchCount (p :: rest) = mismatchCount rest + 1 := by
        simp [mismatchCount, List.countP_cons, hp]
      by_cases hover : tol < cnt + 1
      · rw [if_pos hover, hcount]
        have : ¬ (cnt + (mismatchCount rest + 1) ≤ tol) := by omega
        simp [this]
      · rw [if_neg hover, ih (cnt + 1) (by omega), hcount]
        congr 1
        simp only [eq_iff_iff]
        omega
    · rw [axisGo, if_neg hp]
      have hcount : mismatchCount (p :: rest) = mismatchCount rest := by
        simp [mismatchCount, List.countP_cons, hp]
      rw [ih cnt h, hcount]

set_option maxRecDepth 40000 in
/-- C7 counterexample: on a 100×20 raster with exactly two mismatching
channel comparisons on the left-right axis, the code's verifier accepts
(shared tolerance `floor(0.02 * (w + h)) = 2`), while the claimed per-axis
2%-of-samples tolerance (1 for that axis) rejects. -/
theorem verifySeamless_tolerance_counterexample :
    verifySeamless 100 20 seamTestImage = true ∧
      claimSeamless 100 20 seamTestImage = false := by
  constructor
  · decide
  · decide

/-- C7 (amended): the verifier compares the leftmost against the rightmost
column and the topmost against the bottommost row channel-by-channel
(alpha ignored), counts a mismatch when values differ by more than 10, and
each axis passes exactly when its mismatch count is at most
`floor(2% * (width + height))` — one bound shared by both axes, not 2% of
that axis's own samples; the raster passes only if both axes pass. -/
theorem verifySeamless_characterization (w h : ℕ) (img : Image) :
    verifySeamless w h img =
      (decide (mismatchCount (lrPairs w h img) ≤ seamTol w h) &&
        decide (mismatchCount (tbPairs w h img) ≤ seamTol w h)) := by
  rw [verifySeamless,
    axisGo_eq_decide (seamTol w h) (lrPairs w h img) 0 (Nat.zero_le _),
    axisGo_eq_decide (seamTol w h) (tbPairs w h img) 0 (Nat.zero_le _)]
  simp

/- ### C8 -/

/-- C8: `noise2D` is pure — it mutates nothing, so repeated calls at the same
`(x, y)` are the same value by definition — and two fields over the same
base permutation table seeded with the same value (in particular a fresh
field versus one reseeded between calls, since reseeding never touches the
base table) produce identical noise values at every query point. -/
theorem noise2D_seed_determinism (st st' : PerlinField) (s x y : ℚ)
    (h : st.permutation = st'.permutation) :
    noise2D (seedPerlin st s) x y = noise2D (seedPerlin st' s) x y := by
  simp only [noise2D, seedPerlin]
  rw [h]

set_option maxRecDepth 100000 in
/-- Witness for C8: a field reseeded from 5 to 7 agrees everywhere with a
fresh field seeded with 7. -/
theorem noise2D_seed_determinism_witness :
    noise2D (seedPerlin mkPerlin 7) (1 / 2) (1 / 3) =
      noise2D (seedPerlin (seedPerlin mkPerlin 5) 7) (1 / 2) (1 / 3) :=
  noise2D_seed_determinism mkPerlin (seedPerlin mkPerlin 5) 7 (1 / 2) (1 / 3) rfl

/- ### C9 -/

theorem map_range_getD {α : Type} (f : ℕ → α) (n i : ℕ) (d : α) (h : i < n) :
    ((List.range n).map f).getD i d = f i := by
  simp [List.getD_eq_getElem?_getD, List.getElem?_map, List.getElem?_range, h]

set_option maxRecDepth 100000 in
/-- C9 counterexample: the seeds 0 and 65536 are distinct yet derive the same
key bytes, so reseeding from one to the other changes no table entry and
hence no published `noise2D` output. -/
theorem seed_collision_counterexample :
    (0 : ℚ) ≠ 65536 ∧ seedPerlin mkPerlin 0 = seedPerlin mkPerlin 65536 :=
  ⟨by norm_num, by decide⟩

/-- C9 (amended): reseeding deterministically rebuilds the tables from the
derived two-byte key alone — equal keys give identical states — and seeds
with different derived keys do change the permutation table; but distinct
seed values need not have distinct keys, so "any two distinct seeds publish
different outputs" fails (see the 0 / 65536 collision). -/
theorem seed_key_determinism_amended (st : PerlinField) (s s' : ℚ) :
    (seedKeyBytes s = seedKeyBytes s' → seedPerlin st s = seedPerlin st s') ∧
      (seedKeyBytes s ≠ seedKeyBytes s' →
        (seedPerlin mkPerlin s).perm ≠ (seedPerlin mkPerlin s').perm) := by
  constructor
  · intro h
    simp only [seedPerlin, h]
  · intro hne heq
    apply hne
    have hP : mkPerlin.permutation = basePermutation := rfl
    simp only [seedPerlin, hP] at heq
    have e0 := congrArg (fun l => l.getD 0 0) heq
    have e1 := congrArg (fun l => l.getD 1 0) heq
    simp only [buildPerm] at e0 e1
    rw [map_range_getD _ 512 0 0 (by norm_num),
      map_range_getD _ 512 0 0 (by norm_num)] at e0
    rw [map_range_getD _ 512 1 0 (by norm_num),
      map_range_getD _ 512 1 0 (by norm_num)] at e1
    simp only [permBase256] at e0 e1
    rw [map_range_getD _ 256 0 0 (by norm_num),
      map_range_getD _ 256 0 0 (by norm_num)] at e0
    rw [map_range_getD _ 256 1 0 (by norm_num),
      map_range_getD _ 256 1 0 (by norm_num)] at e1
    simp only [show (0 : ℕ) % 2 = 0 from rfl, show (1 : ℕ) % 2 = 1 from rfl] at e0 e1
    norm_num at e0 e1
    exact Prod.ext_iff.mpr ⟨e0, e1⟩

/-- Witness for the amended C9 theorem: seeds 0 and 1 have different derived
keys and indeed different permutation tables. -/
theorem seed_key_determinism_witness :
    (seedPerlin mkPerlin 0).perm ≠ (seedPerlin mkPerlin 1).perm :=
  (seed_key_determinism_amended mkPerlin 0 1).2 (by decide)

/- ### C2 -/

theorem tileOffsets_eval :
    tileOffsets 100 100 =
      [(-100, -100), (-100, 0), (-100, 100), (0, -100), (0, 0), (0, 100),
        (100, -100), (100, 0), (100, 100)] := by
  decide

/-- C2: with `Math.random()` sampled inside the replication loop, the urban
triangle drawn at the second tile offset is not a translate of the one drawn
at the first — the de-offset first corners land at relative x = +2 and −2
respectively (canvas 100×100, blockSize 1, the random stream `rndC2`) — so
the compositor does not draw the identical shape at all 9 offsets. -/
theorem urban_triangle_replicas_not_identical :
    relFirstVertex Real.pi Real.cos Real.sin rndC2 1 100 100 0 ≠
      relFirstVertex Real.pi Real.cos Real.sin rndC2 1 100 100 1 := by
  intro h
  have hfst := congrArg Prod.fst h
  rw [relFirstVertex, relFirstVertex, urbanTriangleReplica,
    urbanTriangleReplica, tileOffsets_eval] at hfst
  simp only [rndC2] at hfst
  norm_num [Real.cos_zero, Real.cos_pi] at hfst
  rw [show (1 / 2 : ℝ) * Real.pi * 2 = Real.pi from by ring] at hfst
  rw [Real.cos_pi] at hfst
  norm_num at hfst
